import Mathlib

/-
  Shallow embedding of the contact-form controller of src/script.js
  (initializeContactForm): field validation, form-level validation,
  simulated submission, and the success-notification lifecycle.
-/

namespace ContactForm

/-- Whitespace characters recognised by JavaScript String.prototype.trim and
by the regex class backslash-s: TAB, LF, VT, FF, CR, SP, NBSP, the Unicode
space separators, line/paragraph separators and ZWNBSP. -/
def jsWhitespace : List Char :=
  ['\t', '\n', '\x0b', '\x0c', '\r', ' ', '\u00a0', '\u1680',
   '\u2000', '\u2001', '\u2002', '\u2003', '\u2004', '\u2005',
   '\u2006', '\u2007', '\u2008', '\u2009', '\u200a',
   '\u2028', '\u2029', '\u202f', '\u205f', '\u3000', '\ufeff']

/-- A character is JS whitespace. -/
def isJsSpace (c : Char) : Bool := jsWhitespace.contains c

/-- Remove leading JS whitespace. -/
def ltrim (l : List Char) : List Char := l.dropWhile isJsSpace

/-- Remove trailing JS whitespace. -/
def rtrim (l : List Char) : List Char := (l.reverse.dropWhile isJsSpace).reverse

/-- Model of JavaScript String.prototype.trim on the character list. -/
def jsTrim (l : List Char) : List Char := rtrim (ltrim l)

/-- String-level trim, as used by the validators in src/script.js. -/
def jsTrimS (s : String) : String := String.mk (jsTrim s.data)

/-- Result of one field validation (spec data model: Valid or
Invalid carrying a human-readable reason). -/
inductive ValidationResult
  | Valid
  | Invalid (reason : String)
deriving DecidableEq

/-- Error text shown by validateName in src/script.js, line 170. -/
def nameErrorText : String := "Name must be at least 2 characters long"

/-- Error text shown by validateEmail in src/script.js, line 187. -/
def emailErrorText : String := "Please enter a valid email address"

/-- Error text shown by validateMessage in src/script.js, line 203. -/
def messageErrorText : String := "Message must be at least 10 characters long"

/-- Text of the success notification built in showSuccessMessage. -/
def successText : String := "Message sent successfully! I\x27ll get back to you soon."

/-- Character admitted inside a segment of the email regex of
src/script.js line 184: the class excluding whitespace and the at sign. -/
def segChar (c : Char) : Bool := !(isJsSpace c) && !(c == ('@'))

/-- Character test used to locate the at sign. -/
def notAt (c : Char) : Bool := !(c == ('@'))

/-- The part after the at sign must contain a dot that is neither its first
nor its last character (regex needs a nonempty segment on both sides). -/
def innerDot : List Char → Bool
  | [] => false
  | _ :: t => t.dropLast.any (fun c => c == ('.'))

/-- Executable model of the anchored regex at src/script.js line 184:
a nonempty run without whitespace or at signs, one at sign, then a part that
again has no whitespace or at signs and contains an inner dot. -/
def emailTest (s : List Char) : Bool :=
  !(s.dropWhile notAt).isEmpty && !(s.takeWhile notAt).isEmpty &&
    (s.takeWhile notAt).all segChar &&
    ((s.dropWhile notAt).tail).all segChar &&
    innerDot ((s.dropWhile notAt).tail)

/-- validateName of src/script.js lines 165-176: trims the raw value and
rejects trimmed lengths below 2. -/
def validateName (s : String) : ValidationResult :=
  if (jsTrim s.data).length < 2 then ValidationResult.Invalid nameErrorText
  else ValidationResult.Valid

/-- validateEmail of src/script.js lines 181-193: trims the raw value and
tests it against the email regex. -/
def validateEmail (s : String) : ValidationResult :=
  if emailTest (jsTrim s.data) then ValidationResult.Valid
  else ValidationResult.Invalid emailErrorText

/-- validateMessage of src/script.js lines 198-209: trims the raw value and
rejects trimmed lengths below 10. -/
def validateMessage (s : String) : ValidationResult :=
  if (jsTrim s.data).length < 10 then ValidationResult.Invalid messageErrorText
  else ValidationResult.Valid

/-- Conversion of a validation result to the boolean the source handlers
return (true on the Valid branch). -/
def isValid : ValidationResult → Bool
  | ValidationResult.Valid => true
  | ValidationResult.Invalid _ => false

/-- The boolean computed by validateForm (src/script.js lines 214-220):
the conjunction of the three per-field validations of the current values. -/
def validateAll (n e m : String) : Bool :=
  isValid (validateName n) && isValid (validateEmail e) && isValid (validateMessage m)


/-- Presentation state of one field: its current text value, the text of its
error element, and whether the error element carries the show class
(src/script.js showError and hideError, lines 225-237; hideError removes the
class but leaves the text). -/
structure FieldState where
  value : String
  errorMessage : String
  errorShown : Bool
deriving DecidableEq

/-- Submission lifecycle of the spec data model: Idle, Submitting while the
simulated send timer runs, Succeeded when it fires. -/
inductive SubmissionState
  | Idle
  | Submitting
  | Succeeded
deriving DecidableEq

/-- A success notification as built by showSuccessMessage. -/
structure Notification where
  message : String
deriving DecidableEq

/-- The visible notification built by showSuccessMessage (src/script.js
lines 267-341). -/
def succNotification : Notification := { message := successText }

/-- Full controller state: the three fields, the submission lifecycle, and
the list of success notifications currently attached to the document. -/
structure ControllerState where
  name : FieldState
  email : FieldState
  message : FieldState
  submission : SubmissionState
  notifications : List Notification
deriving DecidableEq

/-- Effect of one validation result on a field display: showError sets the
message text and the show class, hideError only removes the class
(src/script.js lines 225-237). -/
def applyResult (f : FieldState) : ValidationResult → FieldState
  | ValidationResult.Valid => { f with errorShown := false }
  | ValidationResult.Invalid reason =>
      { f with errorMessage := reason, errorShown := true }

/-- Blur handler of the name field (src/script.js line 147): runs
validateName on the current value and updates only that field display. -/
def blurName (st : ControllerState) : ControllerState :=
  { st with name := applyResult st.name (validateName st.name.value) }

/-- Blur handler of the email field (src/script.js line 148). -/
def blurEmail (st : ControllerState) : ControllerState :=
  { st with email := applyResult st.email (validateEmail st.email.value) }

/-- Blur handler of the message field (src/script.js line 149). -/
def blurMessage (st : ControllerState) : ControllerState :=
  { st with message := applyResult st.message (validateMessage st.message.value) }

/-- validateForm (src/script.js lines 214-220): runs all three validators on
the current values, updating each field display, then returns the
conjunction of the three results. -/
def validateForm (st : ControllerState) : Bool × ControllerState :=
  (validateAll st.name.value st.email.value st.message.value,
   { st with
      name := applyResult st.name (validateName st.name.value),
      email := applyResult st.email (validateEmail st.email.value),
      message := applyResult st.message (validateMessage st.message.value) })

/-- The submit handler of src/script.js lines 152-160: validate the whole
form, and start the simulated submission only when it reports valid. -/
def submitClick (st : ControllerState) : ControllerState :=
  if (validateForm st).1 then
    { (validateForm st).2 with submission := SubmissionState.Submitting }
  else (validateForm st).2

/-- Clearing a field value, as form.reset() does (src/script.js line 256). -/
def clearValue (f : FieldState) : FieldState := { f with value := "" }

/-- Firing of the simulated-send timer (src/script.js lines 251-261):
the submission succeeds unconditionally, a success notification is appended
to the document, all field values are cleared, and the submit control is
restored. -/
def completeSubmission (st : ControllerState) : ControllerState :=
  { st with
      submission := SubmissionState.Succeeded,
      name := clearValue st.name,
      email := clearValue st.email,
      message := clearValue st.message,
      notifications := st.notifications ++ [succNotification] }

/-- Removing one notification, as both the auto-dismiss timeout (guarded by
a containment check, src/script.js lines 331-335) and the manual close
handler do: the node is removed when present, and removing an absent node
changes nothing. -/
def dismissNotification (st : ControllerState) (n : Notification) : ControllerState :=
  { st with notifications := st.notifications.erase n }

/-- The user typing a new name value (input events are outside the
controller; this models the field value supplied to it). -/
def setNameValue (st : ControllerState) (v : String) : ControllerState :=
  { st with name := { st.name with value := v } }

/-- The user typing a new email value. -/
def setEmailValue (st : ControllerState) (v : String) : ControllerState :=
  { st with email := { st.email with value := v } }

/-- The user typing a new message value. -/
def setMessageValue (st : ControllerState) (v : String) : ControllerState :=
  { st with message := { st.message with value := v } }

/-- The shape the email regex and the spec sentence describe: a first
segment, an at sign, a middle segment, a dot, a final segment, all three
segments nonempty and free of the excluded characters. -/
def emailShape (bad : Char → Prop) (s : List Char) : Prop :=
  ∃ a b c : List Char,
    s = a ++ ('@') :: (b ++ ('.') :: c) ∧
    a ≠ [] ∧ b ≠ [] ∧ c ≠ [] ∧
    (∀ x ∈ a, ¬ bad x) ∧ (∀ x ∈ b, ¬ bad x) ∧ (∀ x ∈ c, ¬ bad x)

/-- Characters the spec sentence excludes from segments: whitespace only. -/
@[reducible] def specNonSpace (c : Char) : Prop := isJsSpace c = true

/-- Characters the source regex excludes from segments: whitespace and the
at sign. -/
@[reducible] def codeSegBad (c : Char) : Prop := isJsSpace c = true ∨ c = ('@')

/-- A field as the page first presents it: a typed value, empty error text,
error hidden. -/
def mkField (v : String) : FieldState :=
  { value := v, errorMessage := "", errorShown := false }

/-- A concrete state whose three values all validate (the end-to-end
scenario of the spec). -/
def validFields : ControllerState :=
  { name := mkField ("Jo"),
    email := mkField ("jo@example.com"),
    message := mkField ("Hello there, how are you?"),
    submission := SubmissionState.Idle,
    notifications := [] }

/-- A concrete state whose three values all fail validation (the negative
end-to-end scenario of the spec). -/
def invalidFields : ControllerState :=
  { name := mkField ("J"),
    email := mkField ("bad"),
    message := mkField ("short"),
    submission := SubmissionState.Idle,
    notifications := [] }

/-- An address with a second at sign: every segment between the separators
is free of whitespace, yet the source regex rejects it. -/
def emailCexAt : String := "a@b@c.d"

/-- An address with one leading space: it does not have the claimed shape,
yet the source accepts it because the value is trimmed first. -/
def emailCexSpace : String := " a@b.co"

/-- The accepted example address of the spec. -/
def emailExampleOk : String := "a@b.co"

/-- The example address without a dot after the at sign. -/
def emailExampleBare : String := "a@b"

/-- The example address with a space inside a segment. -/
def emailExampleInnerSpace : String := "a b@c.com"

/-- The empty example address. -/
def emailExampleEmpty : String := ""

/-- An address surrounded by spaces on both sides. -/
def emailPaddedExample : String := "  a@b.co  "

/-- Two full submission rounds, the second one started after the user types
the same three values again: models a resubmission whose simulated send
finishes two seconds after the first success notification appeared, well
inside that notification fixed five-second lifetime, so neither dismissal
has fired yet. -/
def doubleSubmit : ControllerState :=
  completeSubmission (submitClick
    (setMessageValue
      (setEmailValue
        (setNameValue (completeSubmission (submitClick validFields)) ("Jo"))
        ("jo@example.com"))
      ("Hello there, how are you?")))

end ContactForm

namespace ContactForm

/-- A dropWhile never lengthens the list. -/
theorem length_dropWhile_le (p : Char → Bool) (l : List Char) :
    (l.dropWhile p).length ≤ l.length := by
  induction l with
  | nil => simp
  | cons h t ih =>
    rw [List.dropWhile_cons]
    cases hp : p h
    · simp
    · simpa using Nat.le_succ_of_le ih

/-- If dropWhile keeps a cons unchanged, the head fails the test. -/
theorem head_fails_of_dropWhile_fixed (p : Char → Bool) (h : Char) (t : List Char)
    (hyp : (h :: t).dropWhile p = h :: t) : p h = false := by
  cases hp : p h
  · rfl
  · exfalso
    rw [List.dropWhile_cons, hp] at hyp
    simp at hyp
    have hlen := length_dropWhile_le p t
    rw [hyp] at hlen
    simp at hlen

/-- The head surviving a dropWhile fails the test. -/
theorem dropWhile_head_false (p : Char → Bool) (l : List Char) (x : Char) (t : List Char)
    (hyp : l.dropWhile p = x :: t) : p x = false := by
  induction l with
  | nil => simp at hyp
  | cons h l ih =>
    rw [List.dropWhile_cons] at hyp
    cases hp : p h
    · rw [hp] at hyp
      simp at hyp
      rw [← hyp.1]
      exact hp
    · rw [hp] at hyp
      simp at hyp
      exact ih hyp

/-- dropWhile is idempotent. -/
theorem dropWhile_dropWhile (p : Char → Bool) (l : List Char) :
    (l.dropWhile p).dropWhile p = l.dropWhile p := by
  cases hd : l.dropWhile p with
  | nil => rfl
  | cons x t =>
    rw [List.dropWhile_cons, dropWhile_head_false p l x t hd]
    simp

/-- A dropWhile keeps a final element failing the test. -/
theorem dropWhile_append_single (p : Char → Bool) (u : List Char) (x : Char)
    (hx : p x = false) : (u ++ [x]).dropWhile p = u.dropWhile p ++ [x] := by
  induction u with
  | nil => simp [List.dropWhile_cons, hx]
  | cons h t ih =>
    rw [List.cons_append, List.dropWhile_cons, List.dropWhile_cons]
    cases hp : p h
    · simp
    · simpa using ih

/-- ltrim is idempotent. -/
theorem ltrim_ltrim (l : List Char) : ltrim (ltrim l) = ltrim l :=
  dropWhile_dropWhile isJsSpace l

/-- rtrim is idempotent. -/
theorem rtrim_rtrim (l : List Char) : rtrim (rtrim l) = rtrim l := by
  unfold rtrim
  rw [List.reverse_reverse, dropWhile_dropWhile]

/-- An ltrim-fixed list stays ltrim-fixed after rtrim. -/
theorem ltrim_rtrim_fixed (l : List Char) (h : ltrim l = l) :
    ltrim (rtrim l) = rtrim l := by
  cases l with
  | nil => rfl
  | cons x t =>
    have hx : isJsSpace x = false := head_fails_of_dropWhile_fixed isJsSpace x t h
    unfold rtrim ltrim
    rw [List.reverse_cons x t, dropWhile_append_single isJsSpace t.reverse x hx,
      List.reverse_append]
    simp [List.dropWhile_cons, hx]

/-- The trim of src/script.js (JS String.prototype.trim) is idempotent. -/
theorem jsTrim_idem (l : List Char) : jsTrim (jsTrim l) = jsTrim l := by
  unfold jsTrim
  rw [ltrim_rtrim_fixed (ltrim l) (ltrim_ltrim l), rtrim_rtrim]

end ContactForm

namespace ContactForm

/-- A segment character is exactly one the source regex does not exclude. -/
theorem segChar_iff (c : Char) : segChar c = true ↔ ¬ codeSegBad c := by
  unfold segChar codeSegBad
  cases hsp : isJsSpace c
  · simp [hsp]
  · simp [hsp]

/-- takeWhile and dropWhile split a list at its first marked element. -/
theorem takeWhile_dropWhile_split (p : Char → Bool) (a : List Char) (x : Char)
    (t : List Char) (h1 : ∀ y ∈ a, p y = true) (h2 : p x = false) :
    (a ++ x :: t).takeWhile p = a ∧ (a ++ x :: t).dropWhile p = x :: t := by
  induction a with
  | nil =>
    constructor
    · rw [List.nil_append, List.takeWhile_cons, h2]
      simp
    · rw [List.nil_append, List.dropWhile_cons, h2]
      simp
  | cons h a' ih =>
    have hph : p h = true := h1 h (List.mem_cons_self h a')
    have ih' := ih (fun y hy => h1 y (List.mem_cons_of_mem h hy))
    constructor
    · rw [List.cons_append, List.takeWhile_cons, hph]
      simp [ih'.1]
    · rw [List.cons_append, List.dropWhile_cons, hph]
      simp [ih'.2]

/-- The executable model of the source email regex accepts exactly the
strings of the shape: nonempty segment, at sign, nonempty segment, dot,
nonempty segment, with every segment free of whitespace and at signs. -/
theorem emailTest_iff_shape (s : List Char) :
    emailTest s = true ↔ emailShape codeSegBad s := by
  constructor
  · intro h
    unfold emailTest at h
    simp only [Bool.and_eq_true] at h
    obtain ⟨⟨⟨⟨hne, hane⟩, haseg⟩, hrseg⟩, hdot⟩ := h
    cases hd : s.dropWhile notAt with
    | nil =>
      rw [hd] at hne
      simp at hne
    | cons x r =>
      have hx : notAt x = false := dropWhile_head_false notAt s x r hd
      have hxat : x = ('@') := by
        unfold notAt at hx
        simpa using hx
      have hsplit : s.takeWhile notAt ++ x :: r = s :=
        hd ▸ List.takeWhile_append_dropWhile notAt s
      rw [hd] at hrseg hdot
      simp only [List.tail_cons] at hrseg hdot
      cases hr : r with
      | nil =>
        rw [hr] at hdot
        simp [innerDot] at hdot
      | cons h1 t =>
        rw [hr] at hdot hrseg
        have hdot2 : ∃ d ∈ t.dropLast, (d == ('.')) = true := by
          unfold innerDot at hdot
          exact List.any_eq_true.mp hdot
        obtain ⟨d, hdmem, hdq⟩ := hdot2
        have hdeq : d = ('.') := by simpa using hdq
        subst hdeq
        obtain ⟨u, v, huv⟩ := List.append_of_mem hdmem
        rcases List.eq_nil_or_concat t with h0 | ⟨t0, z, ht0⟩
        · rw [h0] at hdmem
          simp at hdmem
        rw [List.concat_eq_append] at ht0
        rw [ht0, List.dropLast_concat] at huv
        have hall : ∀ y ∈ h1 :: t, segChar y = true := List.all_eq_true.mp hrseg
        have hmem : ∀ y ∈ h1 :: t0, y ∈ h1 :: t := by
          intro y hy
          rcases List.mem_cons.mp hy with h0 | h0
          · rw [h0]
            exact List.mem_cons_self h1 t
          · apply List.mem_cons_of_mem
            rw [ht0]
            exact List.mem_append_left _ h0
        refine ⟨s.takeWhile notAt, h1 :: u, v ++ [z], ?_, ?_, ?_, ?_, ?_, ?_, ?_⟩
        · refine (hsplit.symm).trans ?_
          rw [hxat, hr, ht0, huv]
          simp
        · intro h0
          rw [h0] at hane
          simp at hane
        · simp
        · simp
        · intro y hy
          rw [← segChar_iff]
          exact List.all_eq_true.mp haseg y hy
        · intro y hy
          rw [← segChar_iff]
          apply hall
          apply hmem
          rcases List.mem_cons.mp hy with h0 | h0
          · rw [h0]
            exact List.mem_cons_self h1 t0
          · apply List.mem_cons_of_mem
            rw [huv]
            exact List.mem_append_left _ h0
        · intro y hy
          rw [← segChar_iff]
          apply hall
          rcases List.mem_append.mp hy with h0 | h0
          · apply hmem
            apply List.mem_cons_of_mem
            rw [huv]
            exact List.mem_append_right _ (List.mem_cons_of_mem _ h0)
          · have hz : y = z := by simpa using h0
            rw [hz]
            apply List.mem_cons_of_mem
            rw [ht0]
            exact List.mem_append_right _ (List.mem_cons_self z [])
  · rintro ⟨a, b, c, heq, ha, hb, hc, hwa, hwb, hwc⟩
    have hsplit := takeWhile_dropWhile_split notAt a ('@') (b ++ ('.') :: c)
      (fun y hy => by
        have : ¬ (isJsSpace y = true ∨ y = ('@')) := hwa y hy
        unfold notAt
        simp only [Bool.not_eq_true']
        simp only [beq_eq_false_iff_ne, ne_eq]
        intro h0
        exact this (Or.inr h0))
      (by unfold notAt; simp)
    unfold emailTest
    rw [heq, hsplit.1, hsplit.2]
    simp only [List.tail_cons, Bool.and_eq_true]
    refine ⟨⟨⟨⟨by simp, ?_⟩, ?_⟩, ?_⟩, ?_⟩
    · cases a with
      | nil => exact absurd rfl ha
      | cons x t => simp
    · exact List.all_eq_true.mpr (fun y hy => (segChar_iff y).mpr (hwa y hy))
    · refine List.all_eq_true.mpr (fun y hy => ?_)
      rcases List.mem_append.mp hy with h0 | h0
      · exact (segChar_iff y).mpr (hwb y h0)
      · rcases List.mem_cons.mp h0 with h1 | h1
        · rw [h1]
          decide
        · exact (segChar_iff y).mpr (hwc y h1)
    · cases b with
      | nil => exact absurd rfl hb
      | cons x b' =>
        rcases List.eq_nil_or_concat c with h0 | ⟨c0, z, h0⟩
        · exact absurd h0 hc
        · rw [h0, List.concat_eq_append, List.cons_append]
          simp only [innerDot]
          have harr : b' ++ ('.') :: (c0 ++ [z]) = (b' ++ ('.') :: c0) ++ [z] := by simp
          rw [harr, List.dropLast_concat]
          exact List.any_eq_true.mpr ⟨('.'), List.mem_append_right _ (List.mem_cons_self _ _), by simp⟩

end ContactForm

namespace ContactForm

/-- Neither showError nor hideError touches the field text value. -/
theorem applyResult_value (f : FieldState) (r : ValidationResult) :
    (applyResult f r).value = f.value := by
  cases r <;> rfl

/-- The boolean a source validator returns is true exactly on Valid. -/
theorem isValid_iff (r : ValidationResult) :
    isValid r = true ↔ r = ValidationResult.Valid := by
  cases r <;> simp [isValid]

/-- Claim C1: when validateForm reports the three current field values
invalid, the submit handler is a no-op on the submission lifecycle and the
field values: the state stays Idle, no submission starts, and no field
value changes. -/
theorem submit_invalid_noop (st : ControllerState)
    (hIdle : st.submission = SubmissionState.Idle)
    (hInvalid : validateAll st.name.value st.email.value st.message.value = false) :
    (submitClick st).submission = SubmissionState.Idle ∧
    (submitClick st).name.value = st.name.value ∧
    (submitClick st).email.value = st.email.value ∧
    (submitClick st).message.value = st.message.value := by
  have hcond : (validateForm st).1 = false := hInvalid
  have h1 : submitClick st = (validateForm st).2 := by
    unfold submitClick
    rw [hcond]
    simp
  rw [h1]
  exact ⟨hIdle, applyResult_value _ _, applyResult_value _ _, applyResult_value _ _⟩

/-- Witness for C1 at the invalid end-to-end scenario of the spec. -/
theorem submit_invalid_noop_witness :
    (submitClick invalidFields).submission = SubmissionState.Idle ∧
    (submitClick invalidFields).name.value = invalidFields.name.value ∧
    (submitClick invalidFields).email.value = invalidFields.email.value ∧
    (submitClick invalidFields).message.value = invalidFields.message.value :=
  submit_invalid_noop invalidFields rfl (by decide)

/-- Claim C2: validateForm returns true exactly when the three validators
return Valid on the corresponding current values, its boolean is the
conjunction validateAll of the three results, and it runs all three
validators on the same call, so each field display ends up reflecting its
own validation independently of the others. -/
theorem validateForm_reports_all (st : ControllerState) :
    ((validateForm st).1 = true ↔
      (validateName st.name.value = ValidationResult.Valid ∧
       validateEmail st.email.value = ValidationResult.Valid ∧
       validateMessage st.message.value = ValidationResult.Valid)) ∧
    (validateForm st).1 = validateAll st.name.value st.email.value st.message.value ∧
    (validateForm st).2.name = applyResult st.name (validateName st.name.value) ∧
    (validateForm st).2.email = applyResult st.email (validateEmail st.email.value) ∧
    (validateForm st).2.message = applyResult st.message (validateMessage st.message.value) := by
  refine ⟨?_, rfl, rfl, rfl, rfl⟩
  have h1 : (validateForm st).1 = validateAll st.name.value st.email.value st.message.value := rfl
  rw [h1]
  unfold validateAll
  simp only [Bool.and_eq_true, isValid_iff]
  exact and_assoc

/-- Claim C3 counterexample: the claimed pattern (segments of arbitrary
non-space characters, no trimming) does not characterise validateEmail in
either direction. The address with a second at sign has the claimed shape
yet is rejected by the source regex, whose segments also exclude at signs;
the address with a leading space lacks the claimed shape yet is accepted,
because the source trims the value before testing it. -/
theorem validateEmail_pattern_cex :
    (emailShape specNonSpace (emailCexAt.data) ∧
      validateEmail emailCexAt = ValidationResult.Invalid emailErrorText) ∧
    ((¬ emailShape specNonSpace (emailCexSpace.data)) ∧
      validateEmail emailCexSpace = ValidationResult.Valid) := by
  refine ⟨⟨?_, by decide⟩, ?_, by decide⟩
  · exact ⟨['a'], ['b', '@', 'c'], ['d'], by decide, by decide, by decide, by decide,
      by decide, by decide, by decide⟩
  · rintro ⟨a, b, c, heq, ha, hb, hc, hwa, hwb, hwc⟩
    have hdata : emailCexSpace.data = (' ') :: ("a@b.co".data) := rfl
    cases a with
    | nil => exact ha rfl
    | cons x a2 =>
      rw [hdata, List.cons_append] at heq
      have hx : x = (' ') := ((List.cons.inj heq).1).symm
      apply hwa x (List.mem_cons_self x a2)
      rw [hx]
      decide

/-- Claim C3 as amended: validateEmail is Valid exactly when the TRIMMED
value splits as nonempty segment, at sign, nonempty segment, dot, nonempty
segment, with every segment free of whitespace AND of at signs; the four
concrete examples of the claim behave as stated. -/
theorem validateEmail_amended :
    (∀ s : String,
      validateEmail s = ValidationResult.Valid ↔ emailShape codeSegBad (jsTrim s.data)) ∧
    validateEmail emailExampleOk = ValidationResult.Valid ∧
    validateEmail emailExampleBare = ValidationResult.Invalid emailErrorText ∧
    validateEmail emailExampleInnerSpace = ValidationResult.Invalid emailErrorText ∧
    validateEmail emailExampleEmpty = ValidationResult.Invalid emailErrorText := by
  refine ⟨?_, by decide, by decide, by decide, by decide⟩
  intro s
  have hiff := emailTest_iff_shape (jsTrim s.data)
  unfold validateEmail
  cases he : emailTest (jsTrim s.data)
  · rw [he] at hiff
    simp only [he, Bool.false_eq_true, if_false]
    constructor
    · intro hcon
      exact ValidationResult.noConfusion hcon
    · intro hsh
      exact absurd (hiff.mpr hsh) (by simp)
  · rw [he] at hiff
    have hsh := hiff.mp rfl
    simp [he, hsh]

/-- Claim C4: invoked on three values reported valid, the submit handler
moves the lifecycle from Idle to Submitting, and when the fixed simulated
send timer fires the outcome is deterministically Succeeded with no failure
path: every field value is cleared and exactly one success notification is
appended. -/
theorem submit_valid_success_path (st : ControllerState)
    (_hIdle : st.submission = SubmissionState.Idle)
    (hValid : validateAll st.name.value st.email.value st.message.value = true) :
    (submitClick st).submission = SubmissionState.Submitting ∧
    (completeSubmission (submitClick st)).submission = SubmissionState.Succeeded ∧
    (completeSubmission (submitClick st)).name.value = "" ∧
    (completeSubmission (submitClick st)).email.value = "" ∧
    (completeSubmission (submitClick st)).message.value = "" ∧
    (completeSubmission (submitClick st)).notifications
      = st.notifications ++ [succNotification] := by
  have hcond : (validateForm st).1 = true := hValid
  have h1 : submitClick st
      = { (validateForm st).2 with submission := SubmissionState.Submitting } := by
    unfold submitClick
    rw [hcond]
    simp
  rw [h1]
  exact ⟨rfl, rfl, rfl, rfl, rfl, rfl⟩

/-- Witness for C4 at the valid end-to-end scenario of the spec. -/
theorem submit_valid_success_path_witness :
    (submitClick validFields).submission = SubmissionState.Submitting ∧
    (completeSubmission (submitClick validFields)).submission = SubmissionState.Succeeded ∧
    (completeSubmission (submitClick validFields)).name.value = "" ∧
    (completeSubmission (submitClick validFields)).email.value = "" ∧
    (completeSubmission (submitClick validFields)).message.value = "" ∧
    (completeSubmission (submitClick validFields)).notifications
      = validFields.notifications ++ [succNotification] :=
  submit_valid_success_path validFields rfl (by decide)

/-- Claim C5 counterexample: the controller state reached by two complete
submission rounds in a row, the second finishing while the first success
notification is still inside its five-second lifetime, shows two success
notifications at once, so the one-at-a-time invariant fails on the source
behaviour. -/
theorem notification_stacking_cex :
    doubleSubmit.notifications = [succNotification, succNotification] ∧
    ¬ doubleSubmit.notifications.length ≤ 1 := by decide

/-- Claim C5 as amended: a new success notification stacks beside whatever
is already visible instead of replacing it: completing a submission appends
exactly one notification and removes none, so the visible count grows by
one. -/
theorem notification_append_only (st : ControllerState) :
    (completeSubmission st).notifications = st.notifications ++ [succNotification] ∧
    (completeSubmission st).notifications.length = st.notifications.length + 1 := by
  refine ⟨rfl, ?_⟩
  simp [completeSubmission]

/-- Claim C6: validateName is Invalid with the fixed reason exactly when
the trimmed value is shorter than 2 characters, and Valid otherwise. -/
theorem validateName_spec (s : String) :
    (validateName s = ValidationResult.Invalid nameErrorText ↔ (jsTrim s.data).length < 2) ∧
    (validateName s = ValidationResult.Valid ↔ 2 ≤ (jsTrim s.data).length) := by
  unfold validateName
  by_cases h : (jsTrim s.data).length < 2
  · rw [if_pos h]
    refine ⟨iff_of_true rfl h, iff_of_false ?_ ?_⟩
    · intro hcon
      exact ValidationResult.noConfusion hcon
    · omega
  · rw [if_neg h]
    refine ⟨iff_of_false ?_ h, iff_of_true rfl (by omega)⟩
    intro hcon
    exact ValidationResult.noConfusion hcon

/-- Claim C7: validateMessage is Invalid with the fixed reason exactly when
the trimmed value is shorter than 10 characters, and Valid otherwise. -/
theorem validateMessage_spec (s : String) :
    (validateMessage s = ValidationResult.Invalid messageErrorText ↔ (jsTrim s.data).length < 10) ∧
    (validateMessage s = ValidationResult.Valid ↔ 10 ≤ (jsTrim s.data).length) := by
  unfold validateMessage
  by_cases h : (jsTrim s.data).length < 10
  · rw [if_pos h]
    refine ⟨iff_of_true rfl h, iff_of_false ?_ ?_⟩
    · intro hcon
      exact ValidationResult.noConfusion hcon
    · omega
  · rw [if_neg h]
    refine ⟨iff_of_false ?_ h, iff_of_true rfl (by omega)⟩
    intro hcon
    exact ValidationResult.noConfusion hcon

/-- Claim C8: validating one field is local to that field: each blur
handler leaves the validated field value, the two other fields in full,
the submission lifecycle and the notifications untouched (a validation
failure only marks its own field display and never escapes the
controller). -/
theorem blur_frame (st : ControllerState) :
    (blurName st).name.value = st.name.value ∧
    (blurName st).email = st.email ∧
    (blurName st).message = st.message ∧
    (blurName st).submission = st.submission ∧
    (blurName st).notifications = st.notifications ∧
    (blurEmail st).email.value = st.email.value ∧
    (blurEmail st).name = st.name ∧
    (blurEmail st).message = st.message ∧
    (blurEmail st).submission = st.submission ∧
    (blurEmail st).notifications = st.notifications ∧
    (blurMessage st).message.value = st.message.value ∧
    (blurMessage st).name = st.name ∧
    (blurMessage st).email = st.email ∧
    (blurMessage st).submission = st.submission ∧
    (blurMessage st).notifications = st.notifications :=
  ⟨applyResult_value _ _, rfl, rfl, rfl, rfl,
   applyResult_value _ _, rfl, rfl, rfl, rfl,
   applyResult_value _ _, rfl, rfl, rfl, rfl⟩

/-- Claim C9: dismissing a notification that is not visible (for instance
the auto-dismiss timeout firing after a manual dismissal already removed
it) raises no error and leaves the controller state unchanged. -/
theorem dismiss_absent_noop (st : ControllerState) (n : Notification)
    (h : n ∉ st.notifications) : dismissNotification st n = st := by
  unfold dismissNotification
  rw [List.erase_of_not_mem h]

/-- Witness for C9: dismissing on a state with no visible notification. -/
theorem dismiss_absent_noop_witness :
    dismissNotification validFields succNotification = validFields :=
  dismiss_absent_noop validFields succNotification (by decide)

/-- Claim C10: every validator trims its input first, and trimming is
idempotent, so each validator gives the same result on a raw value as on
its trimmed value; in particular the padded address is Valid although the
raw value holds spaces. -/
theorem validators_trim_invariant :
    (∀ s : String,
      validateName s = validateName (jsTrimS s) ∧
      validateEmail s = validateEmail (jsTrimS s) ∧
      validateMessage s = validateMessage (jsTrimS s)) ∧
    validateEmail emailPaddedExample = ValidationResult.Valid := by
  refine ⟨?_, by decide⟩
  intro s
  have hdata : (jsTrimS s).data = jsTrim s.data := rfl
  unfold validateName validateEmail validateMessage
  rw [hdata, jsTrim_idem]
  exact ⟨rfl, rfl, rfl⟩

end ContactForm
